import Mathlib

/-!
Verification development for the gsutil copy/transfer engine
(`gslib/command.py`).  The definitions below are a shallow embedding of the
copy-related methods of class `Command`: paths and object keys are modelled
as `List Char`, machine integers as `Int`/`Nat`, the filesystem and the
external collaborators (boto storage URIs, the wildcard iterator, the gzip
codec, tempfile, the resumable-transfer handlers) as explicit parameter
structures.  Each embedded function keeps the name of the Python method it
models.
-/

set_option autoImplicit false

namespace Gsutil

/-- A local path or an object key, as a character list (`os.sep` is `/`). -/
abbrev Path := List Char

/-- Drop trailing `/` characters: models Python `s.rstrip(os.sep)`. -/
def rstripSlash (s : Path) : Path :=
  (s.reverse.dropWhile (fun c => c = '/')).reverse

/-- The substring after the last `/` (the whole string when there is no
`/`): models both `os.path.basename(s)` and `s.rpartition(os.sep)[-1]`,
which agree on every input. -/
def afterLastSlash : Path → Path
  | [] => []
  | c :: t => if '/' ∈ t then afterLastSlash t else if c = '/' then t else c :: t

/-- Models POSIX `os.path.dirname`: the head part before the last `/`,
with trailing separators stripped unless the head is all separators. -/
def pyDirname (s : Path) : Path :=
  let head := s.take (s.length - (afterLastSlash s).length)
  if head = [] then []
  else if head.all (fun c => c = '/') then head
  else rstripSlash head

/-- First index at which `needle` occurs in `hay` as a contiguous substring
(`none` when it never occurs): the search underlying Python `hay.find(needle)`. -/
def firstPrefixPos (hay needle : Path) : Option Nat :=
  if needle.isPrefixOf hay then some 0
  else
    match hay with
    | [] => none
    | _ :: t => (firstPrefixPos t needle).map (fun n => n + 1)

/-- Models Python `hay.find(needle)`: first occurrence index, `-1` if absent. -/
def pyFind (hay needle : Path) : Int :=
  match firstPrefixPos hay needle with
  | some n => (n : Int)
  | none => -1

/-- Models Python slicing `s[i:]`, including the negative-index case
(`s[-k:]` keeps the last `k` characters, clamped at the start). -/
def pySliceFrom (s : Path) (i : Int) : Path :=
  if 0 ≤ i then s.drop i.toNat
  else s.drop (s.length - min s.length i.natAbs)

/-- Specification-side notion: `needle` occurs in `hay` starting at index
`i`. -/
def occursAt (needle hay : Path) (i : Nat) : Prop :=
  needle.isPrefixOf (hay.drop i) = true

instance decOccursAt (needle hay : Path) (i : Nat) :
    Decidable (occursAt needle hay i) :=
  inferInstanceAs (Decidable (_ = true))

/-- Models Python `s.split(sep)` for a single-character separator. -/
def splitOnChar (sep : Char) : Path → List Path
  | [] => [[]]
  | c :: t =>
    match splitOnChar sep t with
    | [] => [[]]
    | h :: r => if c = sep then [] :: h :: r else (c :: h) :: r

/-- Try to match the regex `/+\./+` (one or more separators, a literal dot,
one or more separators) at the head of `s`, returning the remainder after a
maximal match. -/
def matchDotSeg (s : Path) : Option Path :=
  match s with
  | [] => none
  | c :: rest =>
    if c = '/' then
      match rest.dropWhile (fun x => x = '/') with
      | [] => none
      | d :: r2 =>
        if d = '.' then
          match r2 with
          | [] => none
          | e :: r3 => if e = '/' then some (r3.dropWhile (fun x => x = '/')) else none
        else none
    else none

/-- The scan behind `re.sub('%s+\.%s+' % (os.sep, os.sep), os.sep, s)`:
every leftmost non-overlapping maximal match of `/+\./+` is replaced by a
single `/`, scanning resuming after the replaced match.  Structured with a
fuel argument so the kernel can evaluate it; each step consumes at least one
character, so fuel `s.length` never runs out (`collapseDotSegsAux_fuel`
below proves the result does not depend on the fuel once it suffices). -/
def collapseDotSegsAux : Nat → Path → Path
  | _, [] => []
  | 0, s => s
  | fuel + 1, c :: cs =>
    match matchDotSeg (c :: cs) with
    | some rest => '/' :: collapseDotSegsAux fuel rest
    | none => c :: collapseDotSegsAux fuel cs

/-- Models `re.sub('%s+\.%s+' % (os.sep, os.sep), os.sep, s)` from
`SrcDstSame`. -/
def collapseDotSegs (s : Path) : Path :=
  collapseDotSegsAux s.length s

/-- Models `re.sub('^.%s+' % os.sep, '', s)` from `SrcDstSame`.  NOTE: the
`.` in this pattern is NOT escaped, so it matches ANY single leading
character (not just a literal dot) followed by one or more separators. -/
def stripLeadCharSlashes (s : Path) : Path :=
  match s with
  | _ :: '/' :: rest => rest.dropWhile (fun c => c = '/')
  | _ => s

/-- The whole local-path normalization performed inside `SrcDstSame`. -/
def normalizeLocalPathCode (s : Path) : Path :=
  stripLeadCharSlashes (collapseDotSegs s)

/-- Modelled from the spec: the normalization the spec describes for the
self-overwrite guard — collapse `./` segments and strip a LEADING `./`
(a literal dot, unlike the unescaped-dot pattern in the code).  Used only
to compare the spec's wording with `normalizeLocalPathCode`. -/
def stripLeadDotSlashes (s : Path) : Path :=
  match s with
  | '.' :: '/' :: rest => rest.dropWhile (fun c => c = '/')
  | _ => s

/-- Modelled from the spec: full spec-side local-path normalization. -/
def specNormalizeLocalPath (s : Path) : Path :=
  stripLeadDotSlashes (collapseDotSegs s)

/-- URI scheme: `file`, or a cloud provider id such as `gs`/`s3`. -/
inductive Scheme where
  | file : Scheme
  | cloud : Path → Scheme
deriving DecidableEq, Repr

/-- The boto `StorageUri` abstraction (external collaborator): a scheme, an
optional bucket name (`[]` when absent) and an object name / local path. -/
structure Uri where
  scheme : Scheme
  bucketName : Path
  objectName : Path
deriving DecidableEq, Repr

def gsLit : Path := "gs".toList

def isFileUri (u : Uri) : Bool :=
  match u.scheme with
  | .file => true
  | .cloud _ => false

def isCloudUri (u : Uri) : Bool := !isFileUri u

/-- The `uri` attribute of a boto StorageUri (its full string form). -/
def uriToString (u : Uri) : Path :=
  match u.scheme with
  | .file => ("file://").toList ++ u.objectName
  | .cloud p => p ++ ("://").toList ++ u.bucketName ++ ('/' :: u.objectName)

/-- boto `clone_replace_name`: same scheme/bucket with a new object name. -/
def cloneReplaceName (u : Uri) (name : Path) : Uri :=
  { u with objectName := name }

/-- Models `boto.storage_uri(uri_str, 'file', ...)`: a `scheme://` prefix
selects the scheme (`file` or a cloud provider with a bucket component);
a bare path defaults to the `file` scheme. -/
def parseUri (s : Path) : Uri :=
  match firstPrefixPos s (("://").toList) with
  | none => ⟨.file, [], s⟩
  | some i =>
    let scheme := s.take i
    let rest := s.drop (i + 3)
    if scheme = ("file").toList then ⟨.file, [], rest⟩
    else
      let bucket := rest.takeWhile (fun c => c ≠ '/')
      let objName := (rest.dropWhile (fun c => c ≠ '/')).drop 1
      ⟨.cloud scheme, bucket, objName⟩

/-- The local filesystem as seen through `os.path.isdir` / `os.path.isfile`. -/
structure FileSystem where
  isDir : Path → Bool
  isFile : Path → Bool

/-- boto `names_container()`: a local directory, or a cloud URI with no
object name (bucket or provider root). -/
def namesContainer (fs : FileSystem) (u : Uri) : Bool :=
  match u.scheme with
  | .file => fs.isDir u.objectName
  | .cloud _ => u.objectName.isEmpty

/-- boto `names_singleton()`: a local regular file, or a cloud URI with an
object name. -/
def namesSingleton (fs : FileSystem) (u : Uri) : Bool :=
  match u.scheme with
  | .file => fs.isFile u.objectName
  | .cloud _ => !u.objectName.isEmpty

/-- Modelled from the spec (§4.1; `wildcard_iterator.py` is not under
`src/`): `ContainsWildcard` — the string holds one of the glob
metacharacters `*`, `?`, `[`, `]`. -/
def containsWildcard (s : Path) : Bool :=
  s.any (fun c => c = '*' || c = '?' || c = '[' || c = ']')

/-- `SrcDstSame`: two URIs denote the same object.  Local file URIs are
compared after `normalizeLocalPathCode`; any other pair by full URI string. -/
def srcDstSame (src dst : Uri) : Bool :=
  if isFileUri src && isFileUri dst then
    uriToString (cloneReplaceName src (normalizeLocalPathCode src.objectName))
      = uriToString (cloneReplaceName dst (normalizeLocalPathCode dst.objectName))
  else
    uriToString src = uriToString dst

/-- The `CommandException`s (and one uncaught Python error) that the
modelled methods can raise, distinguished by message. -/
inductive CmdErr where
  | providerOnlySrc
  | ambiguousDest
  | indexError
  | nothingToCopy
  | destMustBeContainer
  | sameObject
  | conflictFileWhereDirNeeded
  | conflictDirWhereFileNeeded
  | insufficientSpaceGzip
  | insufficientSpaceStaging
  | transferError
  | rmWillNotRemoveBuckets
  | bucketNameError
deriving DecidableEq, Repr

/-- `CheckForDirFileConflict`: raising is modelled as `some` error. -/
def checkForDirFileConflict (fs : FileSystem) (dstPath : Path) : Option CmdErr :=
  if fs.isFile (pyDirname dstPath) then some .conflictFileWhereDirNeeded
  else if fs.isDir dstPath then some .conflictDirWhereFileNeeded
  else none

/-- `ConstructDstUri`: computes the destination URI for one expanded source,
following UNIX `cp` flatten-vs-mirror naming. -/
def constructDstUri (fs : FileSystem) (srcUri expSrcUri baseDstUri : Uri) :
    Except CmdErr Uri :=
  if namesContainer fs baseDstUri then
    let dstKeyName :=
      if namesContainer fs srcUri then
        -- mirror: src_uri.object_name.rstrip(os.sep).rpartition(os.sep)[-1],
        -- located by str.find inside the expanded source's name
        let dstPathStart := afterLastSlash (rstripSlash srcUri.objectName)
        let startPos := pyFind expSrcUri.objectName dstPathStart
        pySliceFrom expSrcUri.objectName startPos
      else
        -- flatten: os.path.basename(exp_src_uri.object_name)
        afterLastSlash expSrcUri.objectName
    if isFileUri baseDstUri then
      let dstKeyName2 := baseDstUri.objectName ++ '/' :: dstKeyName
      match checkForDirFileConflict fs dstKeyName2 with
      | some e => .error e
      | none => .ok (cloneReplaceName baseDstUri dstKeyName2)
    else .ok (cloneReplaceName baseDstUri dstKeyName)
  else .ok (cloneReplaceName baseDstUri baseDstUri.objectName)

/-- Modelled from the spec (§4.1; `wildcard_iterator.py` is not under
`src/`): the Wildcard Expander as a black box — `expand` returns the finite
ordered list of matches of a pattern string, and yields zero matches (not an
error) when nothing matches. -/
structure WildcardEnv where
  expand : Path → List Uri

/-- `ExpandWildcardsAndContainers`: builds the expansion map (modelled as an
association list in insertion order; the Python dict is keyed by StorageUri
object identity, so equal URIs never merge). -/
def expandWildcardsAndContainers (fs : FileSystem) (env : WildcardEnv)
    (shouldRecurse : Bool) (uriStrs : List Path) : List (Uri × List Uri) :=
  -- Step 1: pre-expand local file wildcards into individual top-level URIs.
  let urisToExpand := uriStrs.flatMap (fun s =>
    let u := parseUri s
    if isFileUri u && containsWildcard s then env.expand (uriToString u) else [u])
  -- Step 2: expand containers (or record an empty list without recursion).
  urisToExpand.map (fun u =>
    if namesContainer fs u then
      if !shouldRecurse then (u, [])
      else
        let uriToIter :=
          if isFileUri u then uriToString u ++ ("/**").toList
          else uriToString (cloneReplaceName u (("*").toList))
        (u, env.expand uriToIter)
    else (u, env.expand (uriToString u)))

/-- The self-overwrite scan of `ErrorCheckCopyRequest` over one key's
expanded sources. -/
def sameCheckList (fs : FileSystem) (base src : Uri) : List Uri → Option CmdErr
  | [] => none
  | expSrc :: rest =>
    match constructDstUri fs src expSrc base with
    | .error e => some e
    | .ok newDst =>
      if srcDstSame expSrc newDst then some .sameObject
      else sameCheckList fs base src rest

/-- The self-overwrite scan of `ErrorCheckCopyRequest` over the whole map. -/
def sameCheckPairs (fs : FileSystem) (base : Uri) :
    List (Uri × List Uri) → Option CmdErr
  | [] => none
  | (src, exps) :: rest =>
    match sameCheckList fs base src exps with
    | some e => some e
    | none => sameCheckPairs fs base rest

/-- `multi_src_request`: more than one key, or the first key expands to
more than one concrete source (the code reads `values()[0]`; it is only
evaluated after the nothing-to-copy check rules out an empty map). -/
def multiSrcRequest (expansion : List (Uri × List Uri)) : Bool :=
  decide (expansion.length > 1) ||
    (match expansion.head? with
     | some kv => decide (kv.2.length > 1)
     | none => false)

/-- The tail of `ErrorCheckCopyRequest` once the base destination URI is
resolved: nothing-to-copy check, multi-source container check, and the
self-overwrite scan. -/
def errorCheckWithBase (fs : FileSystem) (expansion : List (Uri × List Uri))
    (base : Uri) : Except CmdErr (Uri × Bool) :=
  if expansion.all (fun kv => kv.2.isEmpty) then .error .nothingToCopy
  else if multiSrcRequest expansion && namesSingleton fs base then
    .error .destMustBeContainer
  else
    match sameCheckPairs fs base expansion with
    | some e => .error e
    | none => .ok (base, multiSrcRequest expansion)

/-- `ErrorCheckCopyRequest`: validates the copy request and resolves the
base destination URI.  A wildcard destination is resolved through the
Wildcard Expander; with more than one match the code raises the ambiguous
destination `CommandException`, and with zero matches `matches[0]` raises an
uncaught Python `IndexError` (modelled as `CmdErr.indexError`). -/
def errorCheckCopyRequest (fs : FileSystem) (env : WildcardEnv)
    (expansion : List (Uri × List Uri)) (dstUriStr : Path) :
    Except CmdErr (Uri × Bool) :=
  if expansion.any (fun kv => isCloudUri kv.1 && kv.1.bucketName.isEmpty) then
    .error .providerOnlySrc
  else
    let baseE : Except CmdErr Uri :=
      if containsWildcard dstUriStr then
        let ms := env.expand dstUriStr
        if ms.length > 1 then .error .ambiguousDest
        else
          match ms with
          | [] => .error .indexError
          | m :: _ => .ok m
      else .ok (parseUri dstUriStr)
    match baseE with
    | .error e => .error e
    | .ok base => errorCheckWithBase fs expansion base

/-- HTTP headers passed along a transfer (only the field the claims need). -/
structure Headers where
  contentEncoding : Option Path
deriving DecidableEq, Repr

def emptyHeaders : Headers := ⟨none⟩

/-- A stored cloud object: its bytes (as numbers), its recorded size, and
the Content-Encoding it carries. -/
structure StoredObject where
  data : List Nat
  size : Nat
  contentEncoding : Option Path
deriving DecidableEq, Repr

/-- External collaborators of the transfer executor: boto config values,
the offsets recorded by the resumable handlers' tracker files, free space
reported by `CheckFreeSpace`, the gzip codec, and `tempfile`. -/
structure TransferEnv where
  resumableThreshold : Int
  uploadStartPoint : Nat
  downloadStartPoint : Nat
  tempFreeSpace : Int
  compress : List Nat → List Nat
  decompress : List Nat → List Nat
  freshTempName : Path
  existingFiles : List Path

def gzipLit : Path := "gzip".toList

def txtLit : Path := "txt".toList

def gzSuffixLit : Path := ".gz".toList

def gztmpSuffixLit : Path := "_.gztmp".toList

/-- `GetTransferHandlers`, reduced to what downstream code observes: the
starting offset recorded by the selected resumable handler, or `none` when
no resumable handler applies (progress callback and tracker-file naming are
I/O bookkeeping with no bearing on the claims).  A resumable handler is used
when the file size reaches the threshold; resumable uploads additionally
require the `gs` scheme. -/
def getTransferHandlers (env : TransferEnv) (scheme : Scheme) (fileSize : Int)
    (upload : Bool) : Option Nat :=
  if env.resumableThreshold ≤ fileSize then
    if upload then
      match scheme with
      | .cloud p => if p = gsLit then some env.uploadStartPoint else none
      | .file => none
    else some env.downloadStartPoint
  else none

/-- `PerformResumableUploadIfApplies`: stores the file's bytes under the
given headers and reports the byte count, subtracting the resumable
handler's `upload_start_point` when one was used. -/
def performResumableUploadIfApplies (env : TransferEnv) (dstUri : Uri)
    (fileData : List Nat) (headers : Headers) : Int × StoredObject :=
  let fileSize := fileData.length
  let handler := getTransferHandlers env dstUri.scheme (fileSize : Int) true
  let stored : StoredObject := ⟨fileData, fileSize, headers.contentEncoding⟩
  let bytesTransferred : Int :=
    match handler with
    | some start => (fileSize : Int) - (start : Int)
    | none => (fileSize : Int)
  (bytesTransferred, stored)

/-- Outcome of `UploadFileToObject`. -/
structure UploadResult where
  stored : StoredObject
  bytesTransferred : Int
  headersSent : Headers
  usedGzipTemp : Bool
  gzipTempDeleted : Bool
deriving DecidableEq, Repr

/-- The gzip test of `UploadFileToObject`: `fname_parts =
src_uri.object_name.split('.')`, compress when there is more than one part
and the last part is in the `-z` extension list.  Note it examines the
SOURCE object name. -/
def gzipApplies (gzipExts : List Path) (srcName : Path) : Bool :=
  let fnameParts := splitOnChar '.' srcName
  decide (fnameParts.length > 1) && gzipExts.contains (fnameParts.getLastD [])

/-- `UploadFileToObject`.  The `-a` (canned ACL) and `-t` (mimetypes
Content-Type guess) option branches touch only external collaborators and
no claim, so the option list is reduced to the parsed `-z` extension list.
When the gzip branch runs: temp-space preflight (≥ 2× source size),
compress to a temp file, set `Content-Encoding: gzip`, upload, then
`os.unlink` the temp file. -/
def uploadFileToObject (env : TransferEnv) (gzipExts : List Path)
    (srcName : Path) (srcData : List Nat) (dstUri : Uri) (headers : Headers) :
    Except CmdErr UploadResult :=
  if gzipApplies gzipExts srcName then
    if env.tempFreeSpace < 2 * (srcData.length : Int) then
      .error .insufficientSpaceGzip
    else
      let headers2 : Headers := { headers with contentEncoding := some gzipLit }
      let r := performResumableUploadIfApplies env dstUri (env.compress srcData) headers2
      .ok ⟨r.2, r.1, headers2, true, true⟩
  else
    let r := performResumableUploadIfApplies env dstUri srcData headers
    .ok ⟨r.2, r.1, headers, false, false⟩

/-- Outcome of `DownloadObjectToFile`: the final local file and its bytes,
the (possibly temporary) name the download itself wrote to, the reported
byte count, and whether a `_.gztmp` sibling was used and then unlinked. -/
structure DownloadResult where
  fileName : Path
  downloadFileName : Path
  content : List Nat
  bytesTransferred : Int
  usedGzTemp : Bool
  gzTempDeleted : Bool
deriving DecidableEq, Repr

/-- `DownloadObjectToFile`: objects stored with gzip Content-Encoding and a
destination not named `*.gz` are downloaded to `<name>_.gztmp`, decompressed
into the final name, and the temp file unlinked; byte counts subtract the
resumable handler's `download_start_point`.  (`os.makedirs` of intermediate
directories is a filesystem effect no claim observes.) -/
def downloadObjectToFile (env : TransferEnv) (srcKey : StoredObject)
    (srcScheme : Scheme) (dstUri : Uri) : DownloadResult :=
  let handler := getTransferHandlers env srcScheme (srcKey.size : Int) false
  let fileName := dstUri.objectName
  let needToUnzip :=
    decide (srcKey.contentEncoding = some gzipLit) && !(gzSuffixLit.isSuffixOf fileName)
  let downloadFileName := if needToUnzip then fileName ++ gztmpSuffixLit else fileName
  let bytesTransferred : Int :=
    match handler with
    | some start => (srcKey.size : Int) - (start : Int)
    | none => (srcKey.size : Int)
  let content := if needToUnzip then env.decompress srcKey.data else srcKey.data
  ⟨fileName, downloadFileName, content, bytesTransferred, needToUnzip, needToUnzip⟩

/-- The four-way dispatch of `PerformCopy` on source/destination schemes. -/
inductive CopyRoute where
  | sameProvider
  | diffProviderStaged
  | uploadRoute
  | downloadRoute
  | fileToFile
deriving DecidableEq, Repr

/-- The scheme dispatch at the heart of `PerformCopy`. -/
def performCopyRoute (src dst : Scheme) : CopyRoute :=
  match src, dst with
  | .cloud p, .cloud q => if p = q then .sameProvider else .diffProviderStaged
  | .file, .cloud _ => .uploadRoute
  | .cloud _, .file => .downloadRoute
  | .file, .file => .fileToFile

instance instDecEqExcept {α β : Type} [DecidableEq α] [DecidableEq β] :
    DecidableEq (Except α β) := fun a b =>
  match a, b with
  | .error x, .error y =>
    if h : x = y then .isTrue (by rw [h]) else .isFalse (by intro hc; cases hc; exact h rfl)
  | .ok x, .ok y =>
    if h : x = y then .isTrue (by rw [h]) else .isFalse (by intro hc; cases hc; exact h rfl)
  | .error _, .ok _ => .isFalse (by intro hc; cases hc)
  | .ok _, .error _ => .isFalse (by intro hc; cases hc)

/-- Observable outcome of `CopyObjToObjDiffProvider`. -/
structure StagedCopyResult where
  outcome : Except CmdErr Nat
  tempName : Path
  tempDeleted : Bool
  transferStarted : Bool
deriving DecidableEq, Repr

/-- `CopyObjToObjDiffProvider`: cross-provider copy staged through a
`tempfile.NamedTemporaryFile`.  The free-space preflight runs before any
byte moves; the download and upload run inside `try/finally` with
`tmp.close()` (which unlinks the temp file) in the `finally` block, so the
temp file is removed whether they succeed or fail.  Failure of the
underlying download or upload is injected through the two Booleans. -/
def copyObjToObjDiffProvider (env : TransferEnv) (srcSize : Nat)
    (downloadFails uploadFails : Bool) : StagedCopyResult :=
  let tmpName := env.freshTempName
  if env.tempFreeSpace < (srcSize : Int) then
    ⟨.error .insufficientSpaceStaging, tmpName, false, false⟩
  else if downloadFails then ⟨.error .transferError, tmpName, true, true⟩
  else if uploadFails then ⟨.error .transferError, tmpName, true, true⟩
  else ⟨.ok srcSize, tmpName, true, true⟩

/-- State threaded through `RemoveObjsCommand`: objects deleted so far (in
order) and the exception that ended the run, if any. -/
structure RmState where
  deleted : List Uri
  outcome : Option CmdErr
deriving DecidableEq, Repr

/-- The per-URI loop of `RemoveObjsCommand`.  A URI naming a container stops
the command: for cloud URIs `check_lowercase_bucketname` (boto) runs first
and can itself raise; otherwise the "rm will not remove buckets" advice
`CommandException` is raised — outside the `try` block, so `-f`
(continue-on-error) does not swallow it.  `delete_key` failure is modelled
by `deleteOk`; with `-f` it is logged and iteration continues. -/
def rmProcess (fs : FileSystem) (deleteOk : Uri → Bool)
    (validBucketName : Path → Bool) (continueOnError : Bool) :
    List Uri → List Uri → RmState
  | [], acc => ⟨acc, none⟩
  | u :: rest, acc =>
    if namesContainer fs u then
      if isCloudUri u && !validBucketName u.bucketName then
        ⟨acc, some .bucketNameError⟩
      else ⟨acc, some .rmWillNotRemoveBuckets⟩
    else if deleteOk u then
      rmProcess fs deleteOk validBucketName continueOnError rest (acc ++ [u])
    else if continueOnError then
      rmProcess fs deleteOk validBucketName continueOnError rest acc
    else ⟨acc, some .transferError⟩

/-- `RemoveObjsCommand`: wildcard-expand each argument and process the
resulting URIs in order. -/
def removeObjsCommand (fs : FileSystem) (env : WildcardEnv)
    (deleteOk : Uri → Bool) (validBucketName : Path → Bool)
    (continueOnError : Bool) (args : List Path) : RmState :=
  rmProcess fs deleteOk validBucketName continueOnError
    (args.flatMap (fun s => env.expand s)) []

/-! Concrete fixtures used by the claim witnesses and counterexamples. -/

/-- Filesystem with no directories and no regular files. -/
def fsNone : FileSystem := ⟨fun _ => false, fun _ => false⟩

/-- Wildcard expander in which no pattern matches anything. -/
def envNone : WildcardEnv := ⟨fun _ => []⟩

def uriAB : Uri := ⟨.file, [], ("a/b").toList⟩

def uriCB : Uri := ⟨.file, [], ("c/b").toList⟩

/-- Wildcard expander in which every pattern has exactly two matches. -/
def envTwo : WildcardEnv := ⟨fun _ => [uriAB, uriCB]⟩

/-- Filesystem in which `dir1/dir2` is the only directory. -/
def fsC1 : FileSystem :=
  ⟨fun p => p = ("dir1/dir2").toList, fun _ => false⟩

/-- Filesystem in which `dir0` is the only directory. -/
def fsC3 : FileSystem :=
  ⟨fun p => p = ("dir0").toList, fun _ => false⟩

def uriFile0 : Uri := ⟨.file, [], ("file0").toList⟩

def uriDir0 : Uri := ⟨.file, [], ("dir0").toList⟩

def uriD0File1 : Uri := ⟨.file, [], ("dir0/file1").toList⟩

def uriD0File2 : Uri := ⟨.file, [], ("dir0/dir1/file2").toList⟩

/-- Wildcard expander for the `file0`, `dir0` (containing `file1` and
`dir1/file2`) scenario. -/
def envC3 : WildcardEnv := ⟨fun s =>
  if s = ("file://file0").toList then [uriFile0]
  else if s = ("file://dir0/**").toList then [uriD0File1, uriD0File2]
  else []⟩

def srcDirC1 : Uri := ⟨.file, [], ("dir1/dir2").toList⟩

def expFileC1 : Uri := ⟨.file, [], ("dir1/dir2/file2").toList⟩

def baseBucket : Uri := ⟨.cloud gsLit, ("bucket").toList, []⟩

/-- Transfer environment: resumable threshold 2 bytes, tracker offsets 1,
ample temp space, identity codec. -/
def envT : TransferEnv :=
  ⟨2, 1, 1, 1000000, fun l => l, fun l => l, ("tmp1").toList, []⟩

/-- Transfer environment with a reversing codec, a concrete stand-in for a
lossless codec (`decompress ∘ compress = id`). -/
def envRev : TransferEnv :=
  ⟨2, 1, 1, 1000000, List.reverse, List.reverse, ("tmp1").toList, []⟩

def uriGsObj : Uri := ⟨.cloud gsLit, ("bucket").toList, ("k").toList⟩

def uriBarBin : Uri := ⟨.cloud gsLit, ("bucket").toList, ("bar.bin").toList⟩

/-- Filesystem in which `d` is the only directory. -/
def fsC10 : FileSystem := ⟨fun p => p = ("d").toList, fun _ => false⟩

def uriA10 : Uri := ⟨.file, [], ("a").toList⟩

def uriD10 : Uri := ⟨.file, [], ("d").toList⟩

/-- Wildcard expander for the `rm x` scenario: `x` expands to a file and a
directory. -/
def envC10 : WildcardEnv :=
  ⟨fun s => if s = ("x").toList then [uriA10, uriD10] else []⟩

/-! Lemmas relating the embedded string operations to their
specification-side characterizations. -/

theorem dropWhileLenLe (p : Char → Bool) (l : Path) :
    (l.dropWhile p).length ≤ l.length := by
  induction l with
  | nil => simp [List.dropWhile]
  | cons a t ih =>
    simp only [List.dropWhile]
    cases p a
    · simp
    · simp only [List.length_cons]
      omega

theorem matchDotSeg_length (s r : Path) (h : matchDotSeg s = some r) :
    r.length < s.length := by
  match s with
  | [] => simp [matchDotSeg] at h
  | c :: rest =>
    simp only [matchDotSeg] at h
    by_cases hc : c = '/'
    · rw [if_pos hc] at h
      cases hds : rest.dropWhile (fun x => x = '/') with
      | nil => rw [hds] at h; exact absurd h (by simp)
      | cons d r2 =>
        rw [hds] at h
        dsimp only at h
        by_cases hd : d = '.'
        · rw [if_pos hd] at h
          cases r2 with
          | nil => exact absurd h (by simp)
          | cons e r3 =>
            dsimp only at h
            by_cases he : e = '/'
            · rw [if_pos he] at h
              have h2 : (r3.dropWhile (fun x => x = '/')).length ≤ r3.length :=
                dropWhileLenLe _ r3
              have h1 : (rest.dropWhile (fun x => x = '/')).length ≤ rest.length :=
                dropWhileLenLe _ rest
              rw [hds] at h1
              simp only [List.length_cons] at h1
              have hr : r = r3.dropWhile (fun x => x = '/') :=
                (Option.some.injEq _ _ ▸ h).symm
              subst hr
              simp only [List.length_cons]
              omega
            · rw [if_neg he] at h; exact absurd h (by simp)
        · rw [if_neg hd] at h; exact absurd h (by simp)
    · rw [if_neg hc] at h; exact absurd h (by simp)

theorem collapseDotSegsAux_fuel (f : Nat) :
    ∀ (g : Nat) (s : Path), s.length ≤ f → s.length ≤ g →
      collapseDotSegsAux f s = collapseDotSegsAux g s := by
  induction f with
  | zero =>
    intro g s hf _
    have hs : s = [] := List.length_eq_zero.mp (Nat.le_zero.mp hf)
    subst hs
    cases g <;> rfl
  | succ f ih =>
    intro g s hf hg
    cases s with
    | nil => cases g <;> rfl
    | cons c cs =>
      cases g with
      | zero => simp [List.length_cons] at hg
      | succ g' =>
        simp only [collapseDotSegsAux]
        cases hms : matchDotSeg (c :: cs) with
        | some rest =>
          have hlt := matchDotSeg_length _ _ hms
          have hf' : rest.length ≤ f := by
            simp only [List.length_cons] at hf hlt; omega
          have hg' : rest.length ≤ g' := by
            simp only [List.length_cons] at hg hlt; omega
          dsimp only
          rw [ih g' rest hf' hg']
        | none =>
          have hf' : cs.length ≤ f := by simp only [List.length_cons] at hf; omega
          have hg' : cs.length ≤ g' := by simp only [List.length_cons] at hg; omega
          dsimp only
          rw [ih g' cs hf' hg']

theorem afterLastSlash_split (s : Path) :
    ∃ pre, s = pre ++ afterLastSlash s ∧ '/' ∉ afterLastSlash s ∧
      (pre = [] ∨ pre.getLast? = some '/') := by
  induction s with
  | nil => exact ⟨[], rfl, by simp [afterLastSlash], Or.inl rfl⟩
  | cons c t ih =>
    by_cases hm : '/' ∈ t
    · obtain ⟨pre, heq, hnot, hlast⟩ := ih
      refine ⟨c :: pre, ?_, ?_, ?_⟩
      · simp only [afterLastSlash, if_pos hm]
        rw [List.cons_append, ← heq]
      · simp only [afterLastSlash, if_pos hm]
        exact hnot
      · right
        cases hlast with
        | inl hnil =>
          subst hnil
          rw [List.nil_append] at heq
          exact absurd (heq ▸ hm) hnot
        | inr hl =>
          cases pre with
          | nil => simp at hl
          | cons p ps => rw [List.getLast?_cons_cons]; exact hl
    · by_cases hc : c = '/'
      · refine ⟨['/'], ?_, ?_, Or.inr (by simp)⟩
        · simp only [afterLastSlash, if_neg hm, if_pos hc]
          rw [hc]
          rfl
        · simp only [afterLastSlash, if_neg hm, if_pos hc]
          exact hm
      · refine ⟨[], ?_, ?_, Or.inl rfl⟩
        · simp only [afterLastSlash, if_neg hm, if_neg hc, List.nil_append]
        · simp only [afterLastSlash, if_neg hm, if_neg hc]
          intro hmem
          rcases List.mem_cons.mp hmem with h1 | h2
          · exact hc h1.symm
          · exact hm h2

theorem firstPrefixPos_some (hay needle : Path) (i : Nat)
    (hocc : needle.isPrefixOf (hay.drop i) = true)
    (hmin : ∀ j, j < i → needle.isPrefixOf (hay.drop j) = false) :
    firstPrefixPos hay needle = some i := by
  induction hay generalizing i with
  | nil =>
    cases i with
    | zero =>
      simp only [List.drop_nil] at hocc
      simp only [firstPrefixPos]
      rw [if_pos hocc]
    | succ k =>
      have h0 := hmin 0 (Nat.succ_pos k)
      simp only [List.drop_nil] at hocc h0
      rw [hocc] at h0
      exact absurd h0 (by simp)
  | cons a t ih =>
    cases i with
    | zero =>
      simp only [List.drop_zero] at hocc
      simp only [firstPrefixPos]
      rw [if_pos hocc]
    | succ k =>
      have h0 : needle.isPrefixOf (a :: t) = false := by
        have := hmin 0 (Nat.succ_pos k)
        simpa using this
      simp only [firstPrefixPos]
      rw [if_neg (by simp [h0])]
      have hrec : firstPrefixPos t needle = some k := by
        apply ih
        · simpa using hocc
        · intro j hj
          have := hmin (j + 1) (by omega)
          simpa using this
      rw [hrec]
      rfl

theorem pyFind_of_firstOccurrence (hay needle : Path) (i : Nat)
    (hocc : occursAt needle hay i)
    (hmin : ∀ j, j < i → ¬ occursAt needle hay j) :
    pyFind hay needle = (i : Int) := by
  have hfalse : ∀ j, j < i → needle.isPrefixOf (hay.drop j) = false := by
    intro j hj
    cases h' : needle.isPrefixOf (hay.drop j) with
    | true => exact absurd h' (hmin j hj)
    | false => rfl
  unfold pyFind
  rw [firstPrefixPos_some hay needle i hocc hfalse]

theorem pySliceFrom_natCast (s : Path) (i : Nat) :
    pySliceFrom s ((i : Nat) : Int) = s.drop i := by
  simp [pySliceFrom]

/-- C1: `ComputeDestination` follows UNIX-cp flatten-vs-mirror rules when
the base destination is a container: when the original source was a single
file/object the destination key is exactly the final path component of the
concrete source (the suffix after the last `/`); when the original source
was itself a container, the destination key keeps everything of the concrete
source's path from the first occurrence of the original source's final path
component onward (so `dir1/dir2` copied into `gs://bucket` puts
`dir1/dir2/file2` at `gs://bucket/dir2/file2`). -/
theorem constructDstUri_flatten_vs_mirror
    (fs : FileSystem) (srcUri expSrcUri base : Uri)
    (hbase : namesContainer fs base = true)
    (hcloud : isFileUri base = false) :
    (namesContainer fs srcUri = false →
      ∃ key pre,
        constructDstUri fs srcUri expSrcUri base = .ok (cloneReplaceName base key) ∧
        expSrcUri.objectName = pre ++ key ∧ '/' ∉ key ∧
        (pre = [] ∨ pre.getLast? = some '/')) ∧
    (namesContainer fs srcUri = true →
      ∀ i : Nat,
        occursAt (afterLastSlash (rstripSlash srcUri.objectName)) expSrcUri.objectName i →
        (∀ j, j < i →
          ¬ occursAt (afterLastSlash (rstripSlash srcUri.objectName)) expSrcUri.objectName j) →
        constructDstUri fs srcUri expSrcUri base =
          .ok (cloneReplaceName base (expSrcUri.objectName.drop i))) := by
  constructor
  · intro hsrc
    obtain ⟨pre, heq, hnot, hlast⟩ := afterLastSlash_split expSrcUri.objectName
    refine ⟨afterLastSlash expSrcUri.objectName, pre, ?_, heq, hnot, hlast⟩
    simp [constructDstUri, hbase, hsrc, hcloud]
  · intro hsrc i hocc hmin
    have hfind := pyFind_of_firstOccurrence _ _ i hocc hmin
    simp [constructDstUri, hbase, hsrc, hcloud, hfind, pySliceFrom_natCast]

/-- Witness for C1 at the spec's own example: copying container `dir1/dir2`
(containing `dir1/dir2/file2`) into `gs://bucket` yields
`gs://bucket/dir2/file2`, with the component `dir2` first occurring at
index 5 of the concrete source's path. -/
theorem constructDstUri_flatten_vs_mirror_witness :
    namesContainer fsC1 srcDirC1 = true ∧
    isFileUri baseBucket = false ∧
    occursAt (afterLastSlash (rstripSlash srcDirC1.objectName)) expFileC1.objectName 5 ∧
    (∀ j, j < 5 →
      ¬ occursAt (afterLastSlash (rstripSlash srcDirC1.objectName)) expFileC1.objectName j) ∧
    expFileC1.objectName.drop 5 = ("dir2/file2").toList ∧
    constructDstUri fsC1 srcDirC1 expFileC1 baseBucket =
      .ok (cloneReplaceName baseBucket (expFileC1.objectName.drop 5)) :=
  ⟨by decide, by decide, by decide, by decide, by decide,
    (constructDstUri_flatten_vs_mirror fsC1 srcDirC1 expFileC1 baseBucket
      (by decide) (by decide)).2 (by decide) 5 (by decide) (by decide)⟩

/-- C2: evaluation of `SrcDstSame` (and of the whole pre-copy validation)
at the failing input `cp a/b c/b`.  The leading-`./`-strip pattern
`'^.%s+' % os.sep` leaves its dot unescaped, so it strips ANY single
leading character followed by separators: both `a/b` and `c/b` normalize to
`b` and the code aborts with the same-object error, although under the
normalization the spec describes (collapse `./`, strip a literal leading
`./`) the two paths stay distinct. -/
theorem srcDstSame_unescaped_dot_bug :
    srcDstSame uriAB uriCB = true ∧
    specNormalizeLocalPath uriAB.objectName ≠ specNormalizeLocalPath uriCB.objectName ∧
    errorCheckCopyRequest fsNone envNone [(uriAB, [uriAB])] (("c/b").toList) =
      .error .sameObject :=
  ⟨by decide, by decide, by decide⟩

/-- C3 counterexample: in the `cp file0 dir0 gs://bucket` scenario the
expansion map keys are `file0` and `dir0` (as the claim says), but the
concrete source `dir0/dir1/file2` under key `dir0` is NOT assigned
`gs://bucket/dir1/file2`. -/
theorem expand_mixed_batch_counterexample :
    expandWildcardsAndContainers fsC3 envC3 true
        [("file0").toList, ("dir0").toList] =
      [(uriFile0, [uriFile0]), (uriDir0, [uriD0File1, uriD0File2])] ∧
    constructDstUri fsC3 uriDir0 uriD0File2 baseBucket ≠
      .ok (cloneReplaceName baseBucket (("dir1/file2").toList)) :=
  ⟨by decide, by decide⟩

/-- C3 amended: each top-level source keeps its own key (`dir0`'s expansion
is not collapsed into `file0`'s), and the concrete source `dir0/dir1/file2`
is assigned destination `gs://bucket/dir0/dir1/file2` — mirroring from the
typed source `dir0` itself — not `gs://bucket/file2`. -/
theorem expand_mixed_batch_amended :
    expandWildcardsAndContainers fsC3 envC3 true
        [("file0").toList, ("dir0").toList] =
      [(uriFile0, [uriFile0]), (uriDir0, [uriD0File1, uriD0File2])] ∧
    constructDstUri fsC3 uriDir0 uriD0File2 baseBucket =
      .ok (cloneReplaceName baseBucket (("dir0/dir1/file2").toList)) ∧
    constructDstUri fsC3 uriDir0 uriD0File2 baseBucket ≠
      .ok (cloneReplaceName baseBucket (("file2").toList)) :=
  ⟨by decide, by decide, by decide⟩

theorem boolNotTrue {b : Bool} (h : ¬ b = true) : b = false := by
  cases b with
  | false => rfl
  | true => exact absurd rfl h

theorem checkForDirFileConflict_ne_nothing (fs : FileSystem) (p : Path) :
    checkForDirFileConflict fs p ≠ some .nothingToCopy := by
  unfold checkForDirFileConflict
  by_cases h1 : fs.isFile (pyDirname p) = true
  · rw [if_pos h1]; decide
  · rw [if_neg h1]
    by_cases h2 : fs.isDir p = true
    · rw [if_pos h2]; decide
    · rw [if_neg h2]; decide

theorem constructDstUri_ne_nothing (fs : FileSystem) (a b c : Uri) :
    constructDstUri fs a b c ≠ .error .nothingToCopy := by
  intro hcon
  unfold constructDstUri at hcon
  by_cases hb : namesContainer fs c = true
  · rw [if_pos hb] at hcon
    by_cases hf : isFileUri c = true
    · rw [if_pos hf] at hcon
      dsimp only at hcon
      split at hcon
      · rename_i heq
        injection hcon with he
        subst he
        exact checkForDirFileConflict_ne_nothing fs _ heq
      · exact Except.noConfusion hcon
    · rw [if_neg hf] at hcon
      exact Except.noConfusion hcon
  · rw [if_neg hb] at hcon
    exact Except.noConfusion hcon

theorem sameCheckList_ne_nothing (fs : FileSystem) (base src : Uri) :
    ∀ l : List Uri, sameCheckList fs base src l ≠ some .nothingToCopy := by
  intro l
  induction l with
  | nil => simp [sameCheckList]
  | cons e rest ih =>
    unfold sameCheckList
    cases hcd : constructDstUri fs src e base with
    | error er =>
      dsimp only
      intro hcon
      injection hcon with he
      subst he
      exact constructDstUri_ne_nothing fs src e base hcd
    | ok d =>
      dsimp only
      by_cases hsame : srcDstSame e d = true
      · rw [if_pos hsame]; decide
      · rw [if_neg hsame]; exact ih

theorem sameCheckPairs_ne_nothing (fs : FileSystem) (base : Uri) :
    ∀ l : List (Uri × List Uri), sameCheckPairs fs base l ≠ some .nothingToCopy := by
  intro l
  induction l with
  | nil => simp [sameCheckPairs]
  | cons kv rest ih =>
    unfold sameCheckPairs
    cases hcl : sameCheckList fs base kv.1 kv.2 with
    | some e =>
      dsimp only
      intro hcon
      injection hcon with he
      subst he
      exact sameCheckList_ne_nothing fs base kv.1 kv.2 hcl
    | none =>
      dsimp only
      exact ih

theorem errorCheckWithBase_nothing_iff (fs : FileSystem)
    (expansion : List (Uri × List Uri)) (base : Uri) :
    errorCheckWithBase fs expansion base = .error .nothingToCopy ↔
      expansion.all (fun kv => kv.2.isEmpty) = true := by
  unfold errorCheckWithBase
  by_cases hall : expansion.all (fun kv => kv.2.isEmpty) = true
  · rw [if_pos hall]
    simp [hall]
  · rw [if_neg hall]
    constructor
    · intro h
      exfalso
      by_cases hm : (multiSrcRequest expansion && namesSingleton fs base) = true
      · rw [if_pos hm] at h
        injection h with he
        exact CmdErr.noConfusion he
      · rw [if_neg hm] at h
        cases heq : sameCheckPairs fs base expansion with
        | some e2 =>
          rw [heq] at h
          dsimp only at h
          injection h with he
          subst he
          exact sameCheckPairs_ne_nothing fs base expansion heq
        | none =>
          rw [heq] at h
          dsimp only at h
          exact Except.noConfusion h
    · intro hcontra
      exact absurd hcontra hall

/-- C4 counterexample: a local-file wildcard pattern with no matches
contributes NO key at all to the expansion map (`ExpandSources` on
`nomatch*` yields an empty map), so the map does not send that pattern's
key to an empty list as the claim states. -/
theorem noMatch_wildcard_key_dropped_counterexample :
    expandWildcardsAndContainers fsNone envNone true [("nomatch*").toList] =
      ([] : List (Uri × List Uri)) ∧
    ¬ ∃ kv, kv ∈ expandWildcardsAndContainers fsNone envNone true
        [("nomatch*").toList] ∧ kv.2 = ([] : List Uri) := by
  have h1 : expandWildcardsAndContainers fsNone envNone true [("nomatch*").toList] =
      ([] : List (Uri × List Uri)) := by decide
  refine ⟨h1, ?_⟩
  rintro ⟨kv, hmem, -⟩
  rw [h1] at hmem
  exact absurd hmem (List.not_mem_nil kv)

/-- C4 amended: a local file wildcard pattern with no matches is dropped
from the map entirely (no key, no error); a wildcard-free container source
without recursion keeps its key mapped to the empty list; and Validate
raises the nothing-to-copy error iff every list in the map is empty,
provided the earlier provider-only-source and wildcard-destination checks
pass (those raise their own errors first). -/
theorem expand_empty_and_nothingToCopy_amended :
    (∀ (fs : FileSystem) (env : WildcardEnv) (r : Bool) (s : Path),
      isFileUri (parseUri s) = true → containsWildcard s = true →
      env.expand (uriToString (parseUri s)) = [] →
      expandWildcardsAndContainers fs env r [s] = []) ∧
    (∀ (fs : FileSystem) (env : WildcardEnv) (strs : List Path) (s : Path),
      s ∈ strs → containsWildcard s = false →
      namesContainer fs (parseUri s) = true →
      (parseUri s, ([] : List Uri)) ∈ expandWildcardsAndContainers fs env false strs) ∧
    (∀ (fs : FileSystem) (env : WildcardEnv)
       (expansion : List (Uri × List Uri)) (dst : Path),
      errorCheckCopyRequest fs env expansion dst = .error .nothingToCopy ↔
        (expansion.all (fun kv => kv.2.isEmpty) = true ∧
         expansion.any (fun kv => isCloudUri kv.1 && kv.1.bucketName.isEmpty) = false ∧
         (containsWildcard dst = true → (env.expand dst).length = 1))) := by
  refine ⟨?_, ?_, ?_⟩
  · intro fs env r s h1 h2 h3
    unfold expandWildcardsAndContainers
    simp [h1, h2, h3]
  · intro fs env strs s hs hw hc
    unfold expandWildcardsAndContainers
    apply List.mem_map.mpr
    refine ⟨parseUri s, ?_, ?_⟩
    · apply List.mem_flatMap.mpr
      exact ⟨s, hs, by simp [hw]⟩
    · simp [hc]
  · intro fs env expansion dst
    unfold errorCheckCopyRequest
    by_cases hp : expansion.any (fun kv => isCloudUri kv.1 && kv.1.bucketName.isEmpty) = true
    · rw [if_pos hp]
      constructor
      · intro h
        exfalso
        injection h with he
        exact CmdErr.noConfusion he
      · rintro ⟨-, hany, -⟩
        rw [hp] at hany
        exact Bool.noConfusion hany
    · rw [if_neg hp]
      have hpf : expansion.any (fun kv => isCloudUri kv.1 && kv.1.bucketName.isEmpty) = false :=
        boolNotTrue hp
      by_cases hw : containsWildcard dst = true
      · rw [if_pos hw]
        dsimp only
        cases hms : env.expand dst with
        | nil => simp [hms, hw, hpf]
        | cons m ms2 =>
          cases ms2 with
          | nil => simp [hms, hw, hpf, errorCheckWithBase_nothing_iff]
          | cons m2 ms3 =>
            have hgt : (m :: m2 :: ms3).length > 1 := by simp
            rw [if_pos hgt]
            dsimp only
            constructor
            · intro h
              exfalso
              injection h with he
              exact CmdErr.noConfusion he
            · rintro ⟨-, -, hlen⟩
              have h1 := hlen hw
              simp at h1
      · rw [if_neg hw]
        dsimp only
        rw [errorCheckWithBase_nothing_iff]
        constructor
        · intro hall
          exact ⟨hall, hpf, fun hcw => absurd hcw hw⟩
        · rintro ⟨hall, -, -⟩
          exact hall

/-- Witness for C4's amended claim at the concrete no-match pattern
`nomatch*`: a local wildcard with zero matches yields an empty map. -/
theorem expand_empty_and_nothingToCopy_amended_witness :
    isFileUri (parseUri (("nomatch*").toList)) = true ∧
    containsWildcard (("nomatch*").toList) = true ∧
    envNone.expand (uriToString (parseUri (("nomatch*").toList))) = [] ∧
    expandWildcardsAndContainers fsNone envNone true [("nomatch*").toList] = [] :=
  ⟨by decide, by decide, by decide,
    expand_empty_and_nothingToCopy_amended.1 fsNone envNone true (("nomatch*").toList)
      (by decide) (by decide) (by decide)⟩

/-- C5 counterexample: a wildcard destination with ZERO matches makes
`ErrorCheckCopyRequest` fail with the uncaught Python `IndexError` from
`matches[0]`, not with the ambiguous-destination `CommandException` the
claim promises for every match count different from one. -/
theorem zero_match_dest_counterexample :
    errorCheckCopyRequest fsNone envNone [(uriAB, [uriAB])] (("gs://b/x*").toList) =
      .error .indexError ∧
    CmdErr.indexError ≠ CmdErr.ambiguousDest :=
  ⟨by decide, by decide⟩

/-- C5 amended: for a wildcard destination, more than one match raises the
ambiguous-destination error and exactly one match becomes the base
destination (validation then continuing with it), but zero matches raise an
uncaught `IndexError` rather than the ambiguous-destination error. -/
theorem wildcard_dest_checks_amended :
    ∀ (fs : FileSystem) (env : WildcardEnv)
      (expansion : List (Uri × List Uri)) (dst : Path),
    containsWildcard dst = true →
    expansion.any (fun kv => isCloudUri kv.1 && kv.1.bucketName.isEmpty) = false →
    ((env.expand dst).length > 1 →
      errorCheckCopyRequest fs env expansion dst = .error .ambiguousDest) ∧
    (env.expand dst = [] →
      errorCheckCopyRequest fs env expansion dst = .error .indexError) ∧
    (∀ m, env.expand dst = [m] →
      errorCheckCopyRequest fs env expansion dst = errorCheckWithBase fs expansion m) := by
  intro fs env expansion dst hw hp
  have hpn : ¬ expansion.any (fun kv => isCloudUri kv.1 && kv.1.bucketName.isEmpty) = true := by
    simp [hp]
  refine ⟨?_, ?_, ?_⟩
  · intro hlen
    unfold errorCheckCopyRequest
    rw [if_neg hpn, if_pos hw]
    dsimp only
    rw [if_pos hlen]
  · intro hnil
    unfold errorCheckCopyRequest
    rw [if_neg hpn, if_pos hw]
    dsimp only
    rw [hnil]
    simp
  · intro m hm
    unfold errorCheckCopyRequest
    rw [if_neg hpn, if_pos hw]
    dsimp only
    rw [hm]
    simp

/-- Witness for C5's amended claim: a destination pattern with two matches
is rejected as ambiguous. -/
theorem wildcard_dest_checks_amended_witness :
    containsWildcard (("gs://b/x*").toList) = true ∧
    ([(uriAB, [uriAB])].any (fun kv => isCloudUri kv.1 && kv.1.bucketName.isEmpty)) = false ∧
    (envTwo.expand (("gs://b/x*").toList)).length > 1 ∧
    errorCheckCopyRequest fsNone envTwo [(uriAB, [uriAB])] (("gs://b/x*").toList) =
      .error .ambiguousDest :=
  ⟨by decide, by decide, by decide,
    (wildcard_dest_checks_amended fsNone envTwo [(uriAB, [uriAB])]
      (("gs://b/x*").toList) (by decide) (by decide)).1 (by decide)⟩

/-- C6: byte accounting.  For a resumable transfer whose handler records
starting offset `N` on data of total size `S`, the reported byte count is
exactly `S - N` (upload: size at or above threshold and `gs` destination;
download: size at or above threshold); every non-resumable transfer
(below-threshold, or an upload to a non-`gs` destination) reports `S`. -/
theorem resumable_byte_accounting :
    ∀ (env : TransferEnv) (dst : Uri) (data : List Nat) (h : Headers)
      (key : StoredObject) (srcScheme : Scheme) (dlUri : Uri),
    (dst.scheme = .cloud gsLit →
      env.resumableThreshold ≤ (data.length : Int) →
      (performResumableUploadIfApplies env dst data h).1 =
        (data.length : Int) - (env.uploadStartPoint : Int)) ∧
    ((data.length : Int) < env.resumableThreshold →
      (performResumableUploadIfApplies env dst data h).1 = (data.length : Int)) ∧
    (dst.scheme = .file →
      (performResumableUploadIfApplies env dst data h).1 = (data.length : Int)) ∧
    (∀ p, dst.scheme = .cloud p → p ≠ gsLit →
      (performResumableUploadIfApplies env dst data h).1 = (data.length : Int)) ∧
    (env.resumableThreshold ≤ (key.size : Int) →
      (downloadObjectToFile env key srcScheme dlUri).bytesTransferred =
        (key.size : Int) - (env.downloadStartPoint : Int)) ∧
    ((key.size : Int) < env.resumableThreshold →
      (downloadObjectToFile env key srcScheme dlUri).bytesTransferred =
        (key.size : Int)) := by
  intro env dst data h key srcScheme dlUri
  refine ⟨?_, ?_, ?_, ?_, ?_, ?_⟩
  · intro hs hth
    simp [performResumableUploadIfApplies, getTransferHandlers, hs, hth]
  · intro hth
    have hn : ¬ env.resumableThreshold ≤ (data.length : Int) := not_le.mpr hth
    simp [performResumableUploadIfApplies, getTransferHandlers, hn]
  · intro hs
    by_cases hth : env.resumableThreshold ≤ (data.length : Int) <;>
      simp [performResumableUploadIfApplies, getTransferHandlers, hs, hth]
  · intro p hp hne
    by_cases hth : env.resumableThreshold ≤ (data.length : Int) <;>
      simp [performResumableUploadIfApplies, getTransferHandlers, hp, hne, hth]
  · intro hth
    simp [downloadObjectToFile, getTransferHandlers, hth]
  · intro hth
    have hn : ¬ env.resumableThreshold ≤ (key.size : Int) := not_le.mpr hth
    simp [downloadObjectToFile, getTransferHandlers, hn]

/-- Witness for C6: a 3-byte upload to `gs://bucket/k` with threshold 2 and
recorded offset 1 reports 3 - 1 = 2 bytes. -/
theorem resumable_byte_accounting_witness :
    uriGsObj.scheme = .cloud gsLit ∧
    envT.resumableThreshold ≤ (([5, 6, 7] : List Nat).length : Int) ∧
    (performResumableUploadIfApplies envT uriGsObj [5, 6, 7] emptyHeaders).1 =
      (([5, 6, 7] : List Nat).length : Int) - (envT.uploadStartPoint : Int) :=
  ⟨by decide, by decide,
    (resumable_byte_accounting envT uriGsObj [5, 6, 7] emptyHeaders
      ⟨[], 0, none⟩ .file uriAB).1 (by decide) (by decide)⟩

/-- C7 counterexample: `UploadFileToObject` decides gzip compression from
the SOURCE object name, not the destination's: uploading `foo.txt` to
`gs://bucket/bar.bin` with `-z txt` compresses, although the destination's
extension `bin` is not in the extension list. -/
theorem gzip_uses_source_ext_counterexample :
    (uploadFileToObject envT [txtLit] (("foo.txt").toList) [1, 2, 3] uriBarBin
        emptyHeaders).toOption.map (fun r => r.usedGzipTemp) = some true ∧
    (splitOnChar '.' uriBarBin.objectName).getLastD [] = ("bin").toList ∧
    [txtLit].contains (("bin").toList) = false :=
  ⟨by decide, by decide, by decide⟩

/-- C7 amended: gzip compression to a temp file occurs exactly when the
SOURCE object name has more than one dot-separated part and its last part
is in the `-z` extension list; when it occurs, the `Content-Encoding: gzip`
header is set, the upload fails with the insufficient-space error when free
temp space is below 2x the source size, the compressed bytes are what gets
stored, and the temp file is deleted after the upload; otherwise the source
bytes are uploaded directly with no gzip marker. -/
theorem gzip_on_source_ext_amended :
    ∀ (env : TransferEnv) (exts : List Path) (srcName : Path)
      (data : List Nat) (dst : Uri),
    (gzipApplies exts srcName = true →
      (env.tempFreeSpace < 2 * (data.length : Int) →
        uploadFileToObject env exts srcName data dst emptyHeaders =
          .error .insufficientSpaceGzip) ∧
      (2 * (data.length : Int) ≤ env.tempFreeSpace →
        uploadFileToObject env exts srcName data dst emptyHeaders =
          .ok ⟨⟨env.compress data, (env.compress data).length, some gzipLit⟩,
               (performResumableUploadIfApplies env dst (env.compress data)
                 ⟨some gzipLit⟩).1,
               ⟨some gzipLit⟩, true, true⟩)) ∧
    (gzipApplies exts srcName = false →
      uploadFileToObject env exts srcName data dst emptyHeaders =
        .ok ⟨⟨data, data.length, none⟩,
             (performResumableUploadIfApplies env dst data emptyHeaders).1,
             emptyHeaders, false, false⟩) := by
  intro env exts srcName data dst
  refine ⟨?_, ?_⟩
  · intro hgz
    refine ⟨?_, ?_⟩
    · intro hlt
      simp [uploadFileToObject, hgz, hlt]
    · intro hge
      have hn : ¬ env.tempFreeSpace < 2 * (data.length : Int) := not_lt.mpr hge
      simp [uploadFileToObject, performResumableUploadIfApplies, hgz, hn,
        emptyHeaders]
  · intro hgz
    simp [uploadFileToObject, performResumableUploadIfApplies, hgz, emptyHeaders]

/-- Witness for C7's amended claim: `-z txt` on source `foo.txt` with ample
temp space compresses, stores the compressed bytes and the gzip marker, and
removes the temp file. -/
theorem gzip_on_source_ext_amended_witness :
    gzipApplies [txtLit] (("foo.txt").toList) = true ∧
    2 * (([1, 2, 3] : List Nat).length : Int) ≤ envT.tempFreeSpace ∧
    uploadFileToObject envT [txtLit] (("foo.txt").toList) [1, 2, 3] uriGsObj
        emptyHeaders =
      .ok ⟨⟨envT.compress [1, 2, 3], (envT.compress [1, 2, 3]).length, some gzipLit⟩,
           (performResumableUploadIfApplies envT uriGsObj (envT.compress [1, 2, 3])
             ⟨some gzipLit⟩).1,
           ⟨some gzipLit⟩, true, true⟩ :=
  ⟨by decide, by decide,
    ((gzip_on_source_ext_amended envT [txtLit] (("foo.txt").toList) [1, 2, 3]
      uriGsObj).1 (by decide)).2 (by decide)⟩

/-- C8: gzip round-trip.  With `-z txt` and a source whose extension is
`txt`, the stored object carries the gzip Content-Encoding marker and holds
the compressed bytes; downloading it to a name not ending in `.gz` goes
through the `<name>_.gztmp` sibling temp file (removed afterwards) and
produces the decompressed bytes — byte-identical to the pre-compression
source whenever the codec is lossless on that content. -/
theorem gzip_roundtrip :
    ∀ (env : TransferEnv) (data : List Nat) (srcName dlName : Path)
      (dst : Uri) (srcScheme : Scheme),
    env.decompress (env.compress data) = data →
    gzipApplies [txtLit] srcName = true →
    2 * (data.length : Int) ≤ env.tempFreeSpace →
    gzSuffixLit.isSuffixOf dlName = false →
    uploadFileToObject env [txtLit] srcName data dst emptyHeaders =
      .ok ⟨⟨env.compress data, (env.compress data).length, some gzipLit⟩,
           (performResumableUploadIfApplies env dst (env.compress data)
             ⟨some gzipLit⟩).1,
           ⟨some gzipLit⟩, true, true⟩ ∧
    (downloadObjectToFile env
        ⟨env.compress data, (env.compress data).length, some gzipLit⟩
        srcScheme ⟨.file, [], dlName⟩).content = data ∧
    (downloadObjectToFile env
        ⟨env.compress data, (env.compress data).length, some gzipLit⟩
        srcScheme ⟨.file, [], dlName⟩).usedGzTemp = true ∧
    (downloadObjectToFile env
        ⟨env.compress data, (env.compress data).length, some gzipLit⟩
        srcScheme ⟨.file, [], dlName⟩).gzTempDeleted = true ∧
    (downloadObjectToFile env
        ⟨env.compress data, (env.compress data).length, some gzipLit⟩
        srcScheme ⟨.file, [], dlName⟩).downloadFileName =
      dlName ++ gztmpSuffixLit ∧
    (downloadObjectToFile env
        ⟨env.compress data, (env.compress data).length, some gzipLit⟩
        srcScheme ⟨.file, [], dlName⟩).fileName = dlName := by
  intro env data srcName dlName dst srcScheme hrt hgz hsp hsuf
  have hn : ¬ env.tempFreeSpace < 2 * (data.length : Int) := not_lt.mpr hsp
  refine ⟨?_, ?_, ?_, ?_, ?_, ?_⟩
  · simp [uploadFileToObject, performResumableUploadIfApplies, hgz, hn,
      emptyHeaders]
  · simp [downloadObjectToFile, hsuf, hrt]
  · simp [downloadObjectToFile, hsuf]
  · simp [downloadObjectToFile, hsuf]
  · simp [downloadObjectToFile, hsuf]
  · simp [downloadObjectToFile]

/-- Witness for C8 with the reversing codec on `[1, 2, 3]`: uploading
`a.txt` with `-z txt` and downloading to `out.txt` reproduces the source
bytes. -/
theorem gzip_roundtrip_witness :
    envRev.decompress (envRev.compress [1, 2, 3]) = [1, 2, 3] ∧
    gzipApplies [txtLit] (("a.txt").toList) = true ∧
    2 * (([1, 2, 3] : List Nat).length : Int) ≤ envRev.tempFreeSpace ∧
    gzSuffixLit.isSuffixOf (("out.txt").toList) = false ∧
    (downloadObjectToFile envRev
        ⟨envRev.compress [1, 2, 3], (envRev.compress [1, 2, 3]).length, some gzipLit⟩
        (.cloud gsLit) ⟨.file, [], ("out.txt").toList⟩).content = [1, 2, 3] :=
  ⟨by decide, by decide, by decide, by decide,
    (gzip_roundtrip envRev [1, 2, 3] (("a.txt").toList) (("out.txt").toList)
      uriGsObj (.cloud gsLit) (by decide) (by decide) (by decide)
      (by decide)).2.1⟩

/-- C9: every cross-provider cloud copy routes through the staged local
temp file path; the free-space preflight fails with the insufficient-space
error before any byte is transferred; once the preflight passes the temp
file is deleted whether the download/upload succeeds or fails; and the
staging file carries the fresh `tempfile` name, distinct from every
existing file. -/
theorem diffProvider_staging_cleanup :
    ∀ (env : TransferEnv) (srcSize : Nat) (df uf : Bool),
    (env.tempFreeSpace < (srcSize : Int) →
      (copyObjToObjDiffProvider env srcSize df uf).outcome =
        .error .insufficientSpaceStaging ∧
      (copyObjToObjDiffProvider env srcSize df uf).transferStarted = false) ∧
    ((srcSize : Int) ≤ env.tempFreeSpace →
      (copyObjToObjDiffProvider env srcSize df uf).tempDeleted = true) ∧
    (copyObjToObjDiffProvider env srcSize df uf).tempName = env.freshTempName ∧
    (env.freshTempName ∉ env.existingFiles →
      (copyObjToObjDiffProvider env srcSize df uf).tempName ∉ env.existingFiles) ∧
    (∀ p q : Path, p ≠ q →
      performCopyRoute (.cloud p) (.cloud q) = .diffProviderStaged) := by
  intro env srcSize df uf
  have ht : (copyObjToObjDiffProvider env srcSize df uf).tempName =
      env.freshTempName := by
    cases df <;> cases uf <;>
      by_cases hlt : env.tempFreeSpace < (srcSize : Int) <;>
      simp [copyObjToObjDiffProvider, hlt]
  refine ⟨?_, ?_, ht, ?_, ?_⟩
  · intro hlt
    constructor <;> simp [copyObjToObjDiffProvider, hlt]
  · intro hge
    have hn : ¬ env.tempFreeSpace < (srcSize : Int) := not_lt.mpr hge
    cases df <;> cases uf <;> simp [copyObjToObjDiffProvider, hn]
  · intro hni
    rw [ht]
    exact hni
  · intro p q hne
    simp [performCopyRoute, hne]

/-- Witness for C9: with ample temp space and a failing download, the temp
file is still deleted; the staging name is fresh; `gs` to `s3` routes
through staging. -/
theorem diffProvider_staging_cleanup_witness :
    ((5 : Nat) : Int) ≤ envT.tempFreeSpace ∧
    (copyObjToObjDiffProvider envT 5 true false).tempDeleted = true ∧
    envT.freshTempName ∉ envT.existingFiles ∧
    (copyObjToObjDiffProvider envT 5 true false).tempName ∉ envT.existingFiles ∧
    performCopyRoute (.cloud gsLit) (.cloud (("s3").toList)) = .diffProviderStaged :=
  ⟨by decide,
   (diffProvider_staging_cleanup envT 5 true false).2.1 (by decide),
   by decide,
   (diffProvider_staging_cleanup envT 5 true false).2.2.2.1 (by decide),
   (diffProvider_staging_cleanup envT 5 true false).2.2.2.2 gsLit
     (("s3").toList) (by decide)⟩

theorem rmProcess_deleted_noContainer (fs : FileSystem) (delOk : Uri → Bool)
    (vb : Path → Bool) (cont : Bool) :
    ∀ (uris acc : List Uri),
    (∀ u ∈ acc, namesContainer fs u = false) →
    ∀ u ∈ (rmProcess fs delOk vb cont uris acc).deleted,
      namesContainer fs u = false := by
  intro uris
  induction uris with
  | nil =>
    intro acc hacc u hu
    simp only [rmProcess] at hu
    exact hacc u hu
  | cons v rest ih =>
    intro acc hacc u hu
    simp only [rmProcess] at hu
    by_cases hv : namesContainer fs v = true
    · rw [if_pos hv] at hu
      by_cases hcv : (isCloudUri v && !vb v.bucketName) = true
      · rw [if_pos hcv] at hu
        exact hacc u hu
      · rw [if_neg hcv] at hu
        exact hacc u hu
    · have hvf := boolNotTrue hv
      rw [if_neg hv] at hu
      by_cases hd : delOk v = true
      · rw [if_pos hd] at hu
        refine ih (acc ++ [v]) ?_ u hu
        intro w hw
        rcases List.mem_append.mp hw with h1 | h2
        · exact hacc w h1
        · rw [List.mem_singleton.mp h2]
          exact hvf
      · rw [if_neg hd] at hu
        by_cases hc : cont = true
        · rw [if_pos hc] at hu
          exact ih acc hacc u hu
        · rw [if_neg hc] at hu
          exact hacc u hu

theorem rmProcess_container_advice (fs : FileSystem) (delOk : Uri → Bool)
    (vb : Path → Bool) (cont : Bool) :
    ∀ (pre : List Uri) (u : Uri) (post acc : List Uri),
    namesContainer fs u = true →
    (isCloudUri u = true → vb u.bucketName = true) →
    (cont = true ∨ ∀ v ∈ pre, delOk v = true) →
    (∀ v ∈ pre, namesContainer fs v = false) →
    (rmProcess fs delOk vb cont (pre ++ u :: post) acc).outcome =
      some .rmWillNotRemoveBuckets := by
  intro pre
  induction pre with
  | nil =>
    intro u post acc hu hvb _ _
    simp only [List.nil_append, rmProcess]
    rw [if_pos hu]
    have hcv : (isCloudUri u && !vb u.bucketName) = false := by
      by_cases hcl : isCloudUri u = true
      · simp [hcl, hvb hcl]
      · simp [boolNotTrue hcl]
    rw [if_neg (by simp [hcv])]
  | cons v pre ih =>
    intro u post acc hu hvb hdel hpre
    have hvf : namesContainer fs v = false := hpre v (List.mem_cons_self v pre)
    simp only [List.cons_append, rmProcess]
    rw [if_neg (by simp [hvf])]
    by_cases hd : delOk v = true
    · rw [if_pos hd]
      refine ih u post (acc ++ [v]) hu hvb ?_ ?_
      · cases hdel with
        | inl h => exact Or.inl h
        | inr h => exact Or.inr (fun w hw => h w (List.mem_cons_of_mem v hw))
      · intro w hw
        exact hpre w (List.mem_cons_of_mem v hw)
    · rw [if_neg hd]
      have hc : cont = true := by
        cases hdel with
        | inl h => exact h
        | inr h => exact absurd (h v (List.mem_cons_self v pre)) hd
      rw [if_pos hc]
      exact ih u post acc hu hvb (Or.inl hc)
        (fun w hw => hpre w (List.mem_cons_of_mem v hw))

/-- C10: `RemoveObjsCommand` never deletes a container.  Every URI it ever
deletes is a non-container, in both modes; and whenever the expanded URI
list reaches a container (all URIs before it are non-containers, and either
`-f` is set or their deletes succeed; cloud containers passing boto's
bucket-name check), the command stops with the "rm will not remove buckets"
`CommandException` and that container is never deleted. -/
theorem rm_never_removes_containers :
    ∀ (fs : FileSystem) (env : WildcardEnv) (delOk : Uri → Bool)
      (vb : Path → Bool) (cont : Bool) (args : List Path),
    (∀ u, u ∈ (removeObjsCommand fs env delOk vb cont args).deleted →
      namesContainer fs u = false) ∧
    (∀ (pre : List Uri) (u : Uri) (post : List Uri),
      args.flatMap (fun s => env.expand s) = pre ++ u :: post →
      namesContainer fs u = true →
      (isCloudUri u = true → vb u.bucketName = true) →
      (cont = true ∨ ∀ v ∈ pre, delOk v = true) →
      (∀ v ∈ pre, namesContainer fs v = false) →
      (removeObjsCommand fs env delOk vb cont args).outcome =
        some .rmWillNotRemoveBuckets ∧
      u ∉ (removeObjsCommand fs env delOk vb cont args).deleted) := by
  intro fs env delOk vb cont args
  constructor
  · intro u hu
    exact rmProcess_deleted_noContainer fs delOk vb cont _ []
      (fun w hw => absurd hw (List.not_mem_nil w)) u hu
  · intro pre u post heq hu hvb hdel hpre
    constructor
    · unfold removeObjsCommand
      rw [heq]
      exact rmProcess_container_advice fs delOk vb cont pre u post [] hu hvb hdel hpre
    · intro hmem
      have hfalse := rmProcess_deleted_noContainer fs delOk vb cont _ []
        (fun w hw => absurd hw (List.not_mem_nil w)) u hmem
      rw [hu] at hfalse
      exact Bool.noConfusion hfalse

/-- Witness for C10: `rm x` where `x` expands to the file `a` followed by
the directory `d`, without `-f`: the run ends with the advice
`CommandException` and `d` is not deleted. -/
theorem rm_never_removes_containers_witness :
    [("x").toList].flatMap (fun s => envC10.expand s) = [uriA10] ++ uriD10 :: [] ∧
    namesContainer fsC10 uriD10 = true ∧
    (∀ v ∈ [uriA10], namesContainer fsC10 v = false) ∧
    ((removeObjsCommand fsC10 envC10 (fun _ => true) (fun _ => true) false
        [("x").toList]).outcome = some .rmWillNotRemoveBuckets ∧
      uriD10 ∉ (removeObjsCommand fsC10 envC10 (fun _ => true) (fun _ => true) false
        [("x").toList]).deleted) :=
  ⟨by decide, by decide, by decide,
    (rm_never_removes_containers fsC10 envC10 (fun _ => true) (fun _ => true) false
      [("x").toList]).2 [uriA10] uriD10 [] (by decide) (by decide)
      (fun _ => rfl) (Or.inr (by decide)) (by decide)⟩
